import Mathlib

/-!
Verification of the movieflix asset-generation scripts.

The three Python scripts (`generate_brand_assets.py`, `fix_adaptive_icon.py`,
`generate_movies_splash.py`) are shallowly embedded below.  Images are modelled
as a width, a height and a pixel function returning an RGBA quadruple of
naturals; Python `max(0, a - b)` on non-negative integers is Nat truncated
subtraction, Python `//` (and `int()` of a non-negative quotient) is Nat
division.  Floating-point ratio arithmetic in `fix_adaptive_icon.py` is
modelled with exact rational (integer) arithmetic, which agrees with the
float computation at all inputs considered here.
-/

/-- An RGBA pixel: (r, g, b, a), each channel a natural (0..255). -/
abbrev Pixel := Nat × Nat × Nat × Nat

/-- An in-memory image: dimensions plus a pixel lookup function.
An RGB-mode PIL image is modelled with alpha 255 everywhere. -/
structure Img where
  w : Nat
  h : Nat
  pix : Nat → Nat → Pixel

/-- `Image.new(mode, (w, h), color)`: a constant-colored canvas. -/
def Img.new (w h : Nat) (c : Pixel) : Img := ⟨w, h, fun _ _ => c⟩

/-- `_is_background_red` from generate_brand_assets.py:
`r > 200 and g < 90 and b < 90`. -/
def isBackgroundRed (r g b : Nat) : Bool :=
  decide (200 < r) && decide (g < 90) && decide (b < 90)

/-- Foreground test used by the bbox scan: the pixel's RGB channels are
not classified as background (`if not _is_background_red(r, g, b)`;
the `convert('RGB')` drops alpha). -/
def fgAt (img : Img) (x y : Nat) : Bool :=
  !(isBackgroundRed (img.pix x y).1 (img.pix x y).2.1 (img.pix x y).2.2.1)

/-- Running state of the `_find_content_bbox` scan: the Python locals
`left, top, right, bottom, found`. -/
structure BboxState where
  left : Nat
  top : Nat
  right : Nat
  bottom : Nat
  found : Bool

/-- One iteration of the inner loop body of `_find_content_bbox`:
on a foreground pixel, update the running extrema and set `found`. -/
def bboxStep (img : Img) (s : BboxState) (c : Nat × Nat) : BboxState :=
  if fgAt img c.1 c.2 then
    { left := if c.1 < s.left then c.1 else s.left,
      top := if c.2 < s.top then c.2 else s.top,
      right := if s.right < c.1 then c.1 else s.right,
      bottom := if s.bottom < c.2 then c.2 else s.bottom,
      found := true }
  else s

/-- The scan order of the double loop `for y in range(h): for x in range(w)`. -/
def scanCoords (w h : Nat) : List (Nat × Nat) :=
  (List.range h).flatMap fun y => (List.range w).map fun x => (x, y)

/-- `_find_content_bbox`: scan all pixels, tracking extrema of foreground
coordinates; return `(0, 0, w, h)` when nothing was found, else
`(left, top, right + 1, bottom + 1)`. -/
def findContentBbox (img : Img) : Nat × Nat × Nat × Nat :=
  let s := (scanCoords img.w img.h).foldl (bboxStep img) ⟨img.w, img.h, 0, 0, false⟩
  if s.found then (s.left, s.top, s.right + 1, s.bottom + 1)
  else (0, 0, img.w, img.h)

/-- The bbox expanded by `pad` per side and clamped to the image extent
(first four lines of `_square_crop`); `max(0, l - pad)` is Nat subtraction. -/
def paddedBbox (w h : Nat) (bbox : Nat × Nat × Nat × Nat) (pad : Nat) : Nat × Nat × Nat × Nat :=
  (bbox.1 - pad, bbox.2.1 - pad, min w (bbox.2.2.1 + pad), min h (bbox.2.2.2 + pad))

/-- The side length `size = max(bw, bh)` of the square window chosen by
`_square_crop` for a given bbox. -/
def squareCropSide (w h : Nat) (bbox : Nat × Nat × Nat × Nat) (pad : Nat) : Nat :=
  max ((paddedBbox w h bbox pad).2.2.1 - (paddedBbox w h bbox pad).1)
    ((paddedBbox w h bbox pad).2.2.2 - (paddedBbox w h bbox pad).2.1)

/-- `_square_crop`: the crop window `(sl, st, sr, sb)` handed to `img.crop`.
The crop result has width `sr - sl` and height `sb - st`. -/
def squareCrop (w h : Nat) (bbox : Nat × Nat × Nat × Nat) (pad : Nat) : Nat × Nat × Nat × Nat :=
  let l := (paddedBbox w h bbox pad).1
  let t := (paddedBbox w h bbox pad).2.1
  let r := (paddedBbox w h bbox pad).2.2.1
  let b := (paddedBbox w h bbox pad).2.2.2
  let bw := r - l
  let bh := b - t
  let size := max bw bh
  let cx := l + bw / 2
  let cy := t + bh / 2
  let sl0 := cx - size / 2
  let st0 := cy - size / 2
  let sr := min w (sl0 + size)
  let sb := min h (st0 + size)
  (sr - size, sb - size, sr, sb)

/-- `_make_transparent_foreground`: pixel-by-pixel, a background-classified
pixel gets alpha 0 (rgb preserved); any other pixel is re-emitted unchanged. -/
def makeTransparentForeground (img : Img) : Img :=
  { w := img.w, h := img.h,
    pix := fun x y =>
      let p := img.pix x y
      if isBackgroundRed p.1 p.2.1 p.2.2.1 then (p.1, p.2.1, p.2.2.1, 0)
      else (p.1, p.2.1, p.2.2.1, p.2.2.2) }

/-- Plain `Image.paste(content, (ox, oy))` of an image onto an RGB canvas:
inside the paste rectangle the content's RGB replaces the canvas (alpha
discarded by the RGB target, so 255); outside, the canvas is untouched. -/
def pastePlain (canvas content : Img) (ox oy : Nat) : Img :=
  { w := canvas.w, h := canvas.h,
    pix := fun x y =>
      if ox ≤ x ∧ x < ox + content.w ∧ oy ≤ y ∧ y < oy + content.h then
        ((content.pix (x - ox) (y - oy)).1, (content.pix (x - ox) (y - oy)).2.1,
          (content.pix (x - ox) (y - oy)).2.2.1, 255)
      else canvas.pix x y }

/-- The square-normalization step at the top of `generate_icons`: a non-square
source is pasted centered onto a square canvas filled with (255, 42, 42). -/
def normalizeSquare (base : Img) : Img :=
  if base.w = base.h then base
  else
    pastePlain (Img.new (max base.w base.h) (max base.w base.h) (255, 42, 42, 255)) base
      ((max base.w base.h - base.w) / 2) ((max base.w base.h - base.h) / 2)

/-- One channel of the image library's masked paste,
`out = (src * m + dst * (255 - m)) / 255` with rounding; exact at the
mask values 0 and 255, which are the only ones the proofs rely on. -/
def blendChannel (m s d : Nat) : Nat := (s * m + d * (255 - m) + 127) / 255

/-- Masked blend of a source pixel over a destination pixel. -/
def blendPix (m : Nat) (s d : Pixel) : Pixel :=
  (blendChannel m s.1 d.1, blendChannel m s.2.1 d.2.1,
    blendChannel m s.2.2.1 d.2.2.1, blendChannel m s.2.2.2 d.2.2.2)

/-- `canvas.paste(content, (ox, oy), content)`: alpha-masked paste, the
content's own alpha serving as the mask. -/
def pasteMask (canvas content : Img) (ox oy : Nat) : Img :=
  { w := canvas.w, h := canvas.h,
    pix := fun x y =>
      if ox ≤ x ∧ x < ox + content.w ∧ oy ≤ y ∧ y < oy + content.h then
        blendPix ((content.pix (x - ox) (y - oy)).2.2.2) (content.pix (x - ox) (y - oy))
          (canvas.pix x y)
      else canvas.pix x y }

/-- The target dimensions computed by `create_adaptive_foreground`:
`safe_zone_size = int(canvas_size * 0.66)`; if the aspect ratio w/h exceeds 1
then `(safe, int(safe / ratio))` else `(int(safe * ratio), safe)`.  The float
ratio is modelled with exact integer arithmetic. -/
def targetDims (w h canvasSize : Nat) : Nat × Nat :=
  let safeZone := canvasSize * 66 / 100
  if h < w then (safeZone, safeZone * h / w) else (safeZone * w / h, safeZone)

/-- `create_adaptive_foreground`: resize the source to the safe-zone target
dimensions, then alpha-paste it centered on a transparent square canvas.
The external image library's resize is a parameter `resizeFn`; its
requirement that both target dimensions be positive (it raises
"height and width must be > 0" otherwise) is the guard. -/
def create_adaptive_foreground (resizeFn : Img → Nat → Nat → Img) (img : Img)
    (canvasSize : Nat) : Except String Img :=
  let nw := (targetDims img.w img.h canvasSize).1
  let nh := (targetDims img.w img.h canvasSize).2
  if nw = 0 ∨ nh = 0 then Except.error "height and width must be > 0"
  else
    Except.ok (pasteMask (Img.new canvasSize canvasSize (0, 0, 0, 0)) (resizeFn img nw nh)
      ((canvasSize - nw) / 2) ((canvasSize - nh) / 2))

/-- `WIDTH` from generate_movies_splash.py. -/
def WIDTH : Nat := 1242

/-- `HEIGHT` from generate_movies_splash.py. -/
def HEIGHT : Nat := 2688

/-- One channel of `lerp(start, end, y / HEIGHT)` followed by `int(...)`:
since every end channel exceeds its start channel, the truncation is
`s + (e - s) * y / HEIGHT` in Nat arithmetic. -/
def lerpChannel (s e y : Nat) : Nat := s + (e - s) * y / HEIGHT

/-- The gradient row color of `base_canvas`, from (5, 6, 15) toward (10, 11, 34). -/
def rowColor (y : Nat) : Nat × Nat × Nat :=
  (lerpChannel 5 10 y, lerpChannel 6 11 y, lerpChannel 15 34 y)

/-- `base_canvas`: a WIDTH × HEIGHT canvas where the line drawn at each y
paints the whole row with the gradient color (alpha 255). -/
def base_canvas : Img :=
  ⟨WIDTH, HEIGHT, fun _ y => ((rowColor y).1, (rowColor y).2.1, (rowColor y).2.2, 255)⟩

/-- The hard-coded source path in `main` of generate_brand_assets.py. -/
def brandSource : String := "C:/Users/mzazimhenga/Downloads/1000373061.png"

/-- Phone app icon path checked by the `__main__` guard of fix_adaptive_icon.py. -/
def phoneIconPath : String := "assets/images/app-icon.png"

/-- Phone adaptive-foreground output path of fix_adaptive_icon.py. -/
def phoneForegroundPath : String := "assets/images/adaptive-foreground.png"

/-- TV app icon path checked by the `__main__` guard of fix_adaptive_icon.py. -/
def tvIconPath : String := "movieflixtv/assets/images/app-icon.png"

/-- TV adaptive-foreground output path of fix_adaptive_icon.py. -/
def tvForegroundPath : String := "movieflixtv/assets/images/adaptive-foreground.png"

/-- The `__main__` guard of fix_adaptive_icon.py: each (source, output)
invocation happens only when the source path exists; a missing source is
skipped with no output for that target. -/
def fixAdaptiveInvocations (fsExists : String → Bool) : List (String × String) :=
  (if fsExists phoneIconPath then [(phoneIconPath, phoneForegroundPath)] else []) ++
    (if fsExists tvIconPath then [(tvIconPath, tvForegroundPath)] else [])

/-- `main` of generate_brand_assets.py up to its error policy: a missing
hard-coded source raises `SystemExit` with a message naming the file,
before any output is produced. -/
def brandMain (fsExists : String → Bool) : Except String Unit :=
  if fsExists brandSource then Except.ok ()
  else Except.error ("Missing source PNG: " ++ brandSource)

/-! ## Concrete images and resize stub used by the witnesses -/

/-- A 2 x 2 image: background red everywhere except a foreground pixel at (1, 1). -/
def imgA : Img :=
  ⟨2, 2, fun x y => if x = 1 && y = 1 then (0, 0, 255, 255) else (255, 0, 0, 255)⟩

/-- A 2 x 4 (non-square) dark image. -/
def imgTall : Img := ⟨2, 4, fun _ _ => (10, 10, 10, 255)⟩

/-- A 4 x 4 opaque dark image. -/
def imgGray : Img := ⟨4, 4, fun _ _ => (10, 10, 10, 255)⟩

/-- A 2000 x 1 image: aspect ratio far beyond the safe-zone size. -/
def imgWide : Img := ⟨2000, 1, fun _ _ => (10, 10, 10, 255)⟩

/-- A stand-in for the library resize: returns an opaque image of the
requested dimensions. -/
def resizeConst : Img → Nat → Nat → Img :=
  fun _ a b => ⟨a, b, fun _ _ => (10, 10, 10, 255)⟩

/-- A 4 x 4 source whose left column is opaque and whose other pixels are
fully transparent. -/
def imgHalf : Img :=
  ⟨4, 4, fun x _ => if x = 0 then (10, 10, 10, 255) else (10, 10, 10, 0)⟩

/-- A nearest-neighbor stand-in for the library resize: dimension-correct and
sampling source pixels, so the alpha pattern of a partially transparent
source survives, as it does under any correct resampling filter. -/
def resizeNearest : Img → Nat → Nat → Img :=
  fun src nw nh => ⟨nw, nh, fun x y => src.pix (x * src.w / nw) (y * src.h / nh)⟩

/-- The adaptive-foreground output for `imgHalf` on an 8-canvas: the resized
content is pasted at offsets (1, 1), but only its opaque columns survive. -/
def cafHalfOut : Img :=
  pasteMask (Img.new 8 8 (0, 0, 0, 0)) (resizeNearest imgHalf 5 5) 1 1



/-! ## Square crop: window bounds, squareness, containment -/

/-- The crop window is ordered and stays inside the image. -/
theorem squareCrop_window_le (w h l t r b pad sl st sr sb : Nat)
    (hres : squareCrop w h (l, t, r, b) pad = (sl, st, sr, sb))
    (hlr : l ≤ r) (hrw : r ≤ w) (htb : t ≤ b) (hbh : b ≤ h) :
    sl ≤ sr ∧ sr ≤ w ∧ st ≤ sb ∧ sb ≤ h := by
  simp only [squareCrop, paddedBbox, Prod.mk.injEq] at hres
  omega

/-- When the chosen side length fits in both image dimensions, both sides of
the crop equal it, so the crop is exactly square. -/
theorem squareCrop_square_of_fit (w h l t r b pad sl st sr sb : Nat)
    (hres : squareCrop w h (l, t, r, b) pad = (sl, st, sr, sb))
    (hlr : l ≤ r) (hrw : r ≤ w) (htb : t ≤ b) (hbh : b ≤ h)
    (hfw : squareCropSide w h (l, t, r, b) pad ≤ w)
    (hfh : squareCropSide w h (l, t, r, b) pad ≤ h) :
    sr - sl = squareCropSide w h (l, t, r, b) pad ∧
    sb - st = squareCropSide w h (l, t, r, b) pad := by
  simp only [squareCrop, squareCropSide, paddedBbox, Prod.mk.injEq] at hres hfw hfh ⊢
  omega

set_option maxHeartbeats 1000000 in
/-- The crop window contains the padded, image-clamped bounding box. -/
theorem squareCrop_covers_padded (w h l t r b pad sl st sr sb : Nat)
    (hres : squareCrop w h (l, t, r, b) pad = (sl, st, sr, sb))
    (hlr : l ≤ r) (hrw : r ≤ w) (htb : t ≤ b) (hbh : b ≤ h) :
    sl ≤ (paddedBbox w h (l, t, r, b) pad).1 ∧
    st ≤ (paddedBbox w h (l, t, r, b) pad).2.1 ∧
    (paddedBbox w h (l, t, r, b) pad).2.2.1 ≤ sr ∧
    (paddedBbox w h (l, t, r, b) pad).2.2.2 ≤ sb := by
  simp only [squareCrop, paddedBbox, Prod.mk.injEq] at hres ⊢
  omega

/-! ## Claim theorems about the square crop (C1, C4) -/

/-- C1 (amended): for every image and every bounding box within it, the crop
window returned by the square-crop routine lies entirely within the source
image's pixel bounds, and whenever the chosen side length
(the larger dimension of the padded, clamped bounding box) fits inside both
image dimensions the crop is exactly square with that side — this covers
every square input image; but on a rectangular image whose smaller dimension
is below the side length the window is clamped to the image and is not
square (see the counterexample). -/
theorem squareCrop_bounds_spec (w h l t r b pad sl st sr sb : Nat)
    (hres : squareCrop w h (l, t, r, b) pad = (sl, st, sr, sb))
    (hlr : l ≤ r) (hrw : r ≤ w) (htb : t ≤ b) (hbh : b ≤ h) :
    (sl ≤ sr ∧ sr ≤ w ∧ st ≤ sb ∧ sb ≤ h) ∧
    (squareCropSide w h (l, t, r, b) pad ≤ w →
      squareCropSide w h (l, t, r, b) pad ≤ h →
      sr - sl = sb - st ∧ sr - sl = squareCropSide w h (l, t, r, b) pad) := by
  refine ⟨squareCrop_window_le w h l t r b pad sl st sr sb hres hlr hrw htb hbh,
    fun hfw hfh => ?_⟩
  obtain ⟨h1, h2⟩ := squareCrop_square_of_fit w h l t r b pad sl st sr sb hres
    hlr hrw htb hbh hfw hfh
  omega

/-- Witness for C1 at a concrete 3 x 3 image and in-bounds bbox. -/
theorem squareCrop_bounds_spec_witness :
    (squareCrop 3 3 (0, 1, 2, 2) 1 = (0, 0, 3, 3) ∧
      (0 : Nat) ≤ 2 ∧ (2 : Nat) ≤ 3 ∧ (1 : Nat) ≤ 2 ∧ (2 : Nat) ≤ 3) ∧
    (((0 : Nat) ≤ 3 ∧ (3 : Nat) ≤ 3 ∧ (0 : Nat) ≤ 3 ∧ (3 : Nat) ≤ 3) ∧
      (squareCropSide 3 3 (0, 1, 2, 2) 1 ≤ 3 →
        squareCropSide 3 3 (0, 1, 2, 2) 1 ≤ 3 →
        (3 : Nat) - 0 = 3 - 0 ∧ (3 : Nat) - 0 = squareCropSide 3 3 (0, 1, 2, 2) 1)) :=
  ⟨by decide, squareCrop_bounds_spec 3 3 0 1 2 2 1 0 0 3 3 (by decide)
    (by decide) (by decide) (by decide) (by decide)⟩

/-- C1 counterexample: on the rectangular 2 × 4 image with the in-bounds
bounding box (0, 0, 2, 4) and default pad 60, the square-crop routine
returns the window (0, 0, 2, 4), whose width 2 differs from its height 4:
the returned crop is not square, refuting the claim that the crop is square
for every image and bounding box (in particular for rectangular images). -/
theorem squareCrop_not_always_square :
    ((0 : Nat) ≤ 2 ∧ (2 : Nat) ≤ 2 ∧ (0 : Nat) ≤ 4 ∧ (4 : Nat) ≤ 4 ∧ (2 : Nat) ≠ 4) ∧
    squareCrop 2 4 (0, 0, 2, 4) 60 = (0, 0, 2, 4) ∧
    (squareCrop 2 4 (0, 0, 2, 4) 60).2.2.1 - (squareCrop 2 4 (0, 0, 2, 4) 60).1 ≠
      (squareCrop 2 4 (0, 0, 2, 4) 60).2.2.2 - (squareCrop 2 4 (0, 0, 2, 4) 60).2.1 := by
  decide

/-- C4: for every image and every bounding box within it, the square-crop
window contains the entire padded (image-clamped) bounding box, and the
window is clamped to the image edges — shifted inward, never outward —
so it never extends past them. -/
theorem squareCrop_contains_spec (w h l t r b pad sl st sr sb : Nat)
    (hres : squareCrop w h (l, t, r, b) pad = (sl, st, sr, sb))
    (hlr : l ≤ r) (hrw : r ≤ w) (htb : t ≤ b) (hbh : b ≤ h) :
    sl ≤ (paddedBbox w h (l, t, r, b) pad).1 ∧
    st ≤ (paddedBbox w h (l, t, r, b) pad).2.1 ∧
    (paddedBbox w h (l, t, r, b) pad).2.2.1 ≤ sr ∧
    (paddedBbox w h (l, t, r, b) pad).2.2.2 ≤ sb ∧
    sr ≤ w ∧ sb ≤ h := by
  obtain ⟨c1, c2, c3, c4⟩ := squareCrop_covers_padded w h l t r b pad sl st sr sb
    hres hlr hrw htb hbh
  obtain ⟨b1, b2, b3, b4⟩ := squareCrop_window_le w h l t r b pad sl st sr sb
    hres hlr hrw htb hbh
  exact ⟨c1, c2, c3, c4, b2, b4⟩

theorem squareCrop_contains_spec_witness :
    (squareCrop 10 10 (2, 3, 5, 6) 2 = (0, 1, 7, 8) ∧
      (2 : Nat) ≤ 5 ∧ (5 : Nat) ≤ 10 ∧ (3 : Nat) ≤ 6 ∧ (6 : Nat) ≤ 10) ∧
    ((0 : Nat) ≤ (paddedBbox 10 10 (2, 3, 5, 6) 2).1 ∧
      (1 : Nat) ≤ (paddedBbox 10 10 (2, 3, 5, 6) 2).2.1 ∧
      (paddedBbox 10 10 (2, 3, 5, 6) 2).2.2.1 ≤ 7 ∧
      (paddedBbox 10 10 (2, 3, 5, 6) 2).2.2.2 ≤ 8 ∧
      (7 : Nat) ≤ 10 ∧ (8 : Nat) ≤ 10) :=
  ⟨by decide, squareCrop_contains_spec 10 10 2 3 5 6 2 0 1 7 8 (by decide)
    (by decide) (by decide) (by decide) (by decide)⟩

/-! ## Chroma-key transparency maker (C3, C6) -/

/-- C3: the chroma-key transparency maker keeps the image dimensions, sets
alpha to 0 on every background-classified pixel while preserving its RGB
channels, and leaves every other pixel completely unchanged, original alpha
included. -/
theorem makeTransparentForeground_spec (img : Img) :
    (makeTransparentForeground img).w = img.w ∧
    (makeTransparentForeground img).h = img.h ∧
    ∀ x y,
      (isBackgroundRed (img.pix x y).1 (img.pix x y).2.1 (img.pix x y).2.2.1 = true →
        (makeTransparentForeground img).pix x y =
          ((img.pix x y).1, (img.pix x y).2.1, (img.pix x y).2.2.1, 0)) ∧
      (isBackgroundRed (img.pix x y).1 (img.pix x y).2.1 (img.pix x y).2.2.1 = false →
        (makeTransparentForeground img).pix x y = img.pix x y) := by
  refine ⟨rfl, rfl, fun x y => ⟨fun hb => ?_, fun hb => ?_⟩⟩ <;>
    simp [makeTransparentForeground, hb]

theorem makeTransparentForeground_spec_witness :
    isBackgroundRed (imgA.pix 0 0).1 (imgA.pix 0 0).2.1 (imgA.pix 0 0).2.2.1 = true ∧
    (makeTransparentForeground imgA).pix 0 0 =
      ((imgA.pix 0 0).1, (imgA.pix 0 0).2.1, (imgA.pix 0 0).2.2.1, 0) :=
  ⟨by decide, ((makeTransparentForeground_spec imgA).2.2 0 0).1 (by decide)⟩

/-- C6: the chroma-key transparency maker is idempotent: applying it to its
own output returns the very same image — background pixels stay transparent
and no other pixel changes. -/
theorem makeTransparentForeground_idem (img : Img) :
    makeTransparentForeground (makeTransparentForeground img) =
      makeTransparentForeground img := by
  cases img with
  | mk w h pix =>
    simp only [makeTransparentForeground]
    congr 1
    funext x y
    rcases hp : pix x y with ⟨r, g, bl, a⟩
    by_cases hb : isBackgroundRed r g bl <;> simp [hb]

/-- C8: the splash composer's base canvas is exactly 1242 x 2688 and its
vertical gradient is non-uniform before any overlay: the top row color
(5, 6, 15) differs from the bottom row color (9, 10, 33), interpolating from
(5, 6, 15) toward (10, 11, 34) as y increases. -/
theorem splash_base_canvas_spec :
    base_canvas.w = 1242 ∧ base_canvas.h = 2688 ∧
    base_canvas.pix 0 0 = (5, 6, 15, 255) ∧
    base_canvas.pix 0 (HEIGHT - 1) = (9, 10, 33, 255) ∧
    base_canvas.pix 0 0 ≠ base_canvas.pix 0 (HEIGHT - 1) := by
  decide

/-- C9: missing-source handling differs by script: the adaptive-icon fixer
checks each source path first and skips the invocation entirely (no output
for that target) when it is absent, while the brand-asset generator raises
SystemExit with a message naming its hard-coded source file. -/
theorem missing_source_policy (fsExists : String → Bool) :
    (fsExists phoneIconPath = false →
      (phoneIconPath, phoneForegroundPath) ∉ fixAdaptiveInvocations fsExists) ∧
    (fsExists tvIconPath = false →
      (tvIconPath, tvForegroundPath) ∉ fixAdaptiveInvocations fsExists) ∧
    (fsExists brandSource = false →
      brandMain fsExists = Except.error ("Missing source PNG: " ++ brandSource)) := by
  refine ⟨fun h1 => ?_, fun h2 => ?_, fun h3 => ?_⟩
  · cases h2 : fsExists tvIconPath <;>
      simp only [fixAdaptiveInvocations, h1, h2, if_false, if_true,
        Bool.false_eq_true, List.nil_append, List.append_nil] <;>
      decide
  · cases h1 : fsExists phoneIconPath <;>
      simp only [fixAdaptiveInvocations, h1, h2, if_false, if_true,
        Bool.false_eq_true, List.nil_append, List.append_nil] <;>
      decide
  · simp [brandMain, h3]

theorem missing_source_policy_witness :
    ((fun _ : String => false) phoneIconPath = false ∧
      (fun _ : String => false) tvIconPath = false ∧
      (fun _ : String => false) brandSource = false) ∧
    ((phoneIconPath, phoneForegroundPath) ∉ fixAdaptiveInvocations (fun _ => false) ∧
      (tvIconPath, tvForegroundPath) ∉ fixAdaptiveInvocations (fun _ => false) ∧
      brandMain (fun _ => false) =
        Except.error ("Missing source PNG: " ++ brandSource)) :=
  ⟨⟨rfl, rfl, rfl⟩,
    (missing_source_policy (fun _ => false)).1 rfl,
    (missing_source_policy (fun _ => false)).2.1 rfl,
    (missing_source_policy (fun _ => false)).2.2 rfl⟩

/-! ## Adaptive foreground (C5, C10) -/

/-- Helper: a * b / c ≤ a when b ≤ c (also when c = 0, since x / 0 = 0). -/
theorem mul_div_le_of_le (a b c : Nat) (hbc : b ≤ c) : a * b / c ≤ a := by
  rcases Nat.eq_zero_or_pos c with hc | hc
  · subst hc
    simp
  · calc a * b / c ≤ a * c / c := Nat.div_le_div_right (Nat.mul_le_mul_left a hbc)
    _ = a := Nat.mul_div_cancel a hc

/-- Both target dimensions are at most the safe-zone size, hence at most the
canvas size. -/
theorem targetDims_le (w h cs : Nat) :
    (targetDims w h cs).1 ≤ cs ∧ (targetDims w h cs).2 ≤ cs := by
  have hsafe : cs * 66 / 100 ≤ cs := by omega
  unfold targetDims
  by_cases hw : h < w
  · simp only [hw, if_true]
    exact ⟨hsafe, le_trans (mul_div_le_of_le _ h w (le_of_lt hw)) hsafe⟩
  · simp only [hw, if_false]
    exact ⟨le_trans (mul_div_le_of_le _ w h (Nat.le_of_not_lt hw)) hsafe, hsafe⟩

/-- C10: on any source whose aspect ratio exceeds the safe-zone size --
width > safe_zone_size * height, e.g. a 2000 x 1 image with the default
canvas 1024 -- the computed target height int(safe / ratio) is 0, and the
resize step's positive-dimension requirement fails: the function errors
instead of producing an output. -/
theorem create_adaptive_foreground_zero_height (resizeFn : Img → Nat → Nat → Img)
    (img : Img) (canvasSize : Nat)
    (hratio : canvasSize * 66 / 100 * img.h < img.w) :
    create_adaptive_foreground resizeFn img canvasSize =
      Except.error "height and width must be > 0" := by
  have hwpos : 0 < img.w := Nat.lt_of_le_of_lt (Nat.zero_le _) hratio
  unfold create_adaptive_foreground targetDims
  by_cases hw : img.h < img.w
  · have h0 : canvasSize * 66 / 100 * img.h / img.w = 0 := Nat.div_eq_of_lt hratio
    simp [hw, h0]
  · have hwh : img.w ≤ img.h := Nat.le_of_not_lt hw
    have hsafe : canvasSize * 66 / 100 = 0 := by
      by_contra hne
      have h1 : 1 ≤ canvasSize * 66 / 100 := Nat.one_le_iff_ne_zero.mpr hne
      have h2 : img.h ≤ canvasSize * 66 / 100 * img.h :=
        Nat.le_mul_of_pos_left img.h h1
      omega
    simp [hw, hsafe]

theorem create_adaptive_foreground_zero_height_witness :
    1024 * 66 / 100 * imgWide.h < imgWide.w ∧
    create_adaptive_foreground resizeConst imgWide 1024 =
      Except.error "height and width must be > 0" :=
  ⟨by decide, create_adaptive_foreground_zero_height resizeConst imgWide 1024 (by decide)⟩

/-- C5 (amended): the universal over all source images must be restricted to
sources whose resized content is fully opaque (and, per C10, whose target
dimensions are positive) — see the counterexample for a partially
transparent source.  Under those preconditions, whenever the library resize
returns an image of the requested (positive) target dimensions, the adaptive
foreground is exactly canvasSize x canvasSize, the content occupies the
rectangle pasted at offsets ((canvasSize - nw) / 2, (canvasSize - nh) / 2)
(these are exactly the non-transparent pixels), and the left/top margin never
exceeds the right/bottom margin by more than the floor-division bias: the
content is centered within one pixel on both axes, biased toward top/left. -/
theorem create_adaptive_foreground_centered (resizeFn : Img → Nat → Nat → Img)
    (img : Img) (cs nw nh : Nat)
    (hdims : targetDims img.w img.h cs = (nw, nh))
    (hnw : 0 < nw) (hnh : 0 < nh)
    (hrw : (resizeFn img nw nh).w = nw) (hrh : (resizeFn img nw nh).h = nh)
    (hop : ∀ x y, x < nw → y < nh → ((resizeFn img nw nh).pix x y).2.2.2 = 255) :
    ∃ out, create_adaptive_foreground resizeFn img cs = Except.ok out ∧
      out.w = cs ∧ out.h = cs ∧
      (∀ x y, x < cs → y < cs →
        (((out.pix x y).2.2.2 ≠ 0) ↔
          ((cs - nw) / 2 ≤ x ∧ x < (cs - nw) / 2 + nw ∧
            (cs - nh) / 2 ≤ y ∧ y < (cs - nh) / 2 + nh))) ∧
      (cs - nw) / 2 ≤ cs - nw - (cs - nw) / 2 ∧
      (cs - nw - (cs - nw) / 2) - (cs - nw) / 2 ≤ 1 ∧
      (cs - nh) / 2 ≤ cs - nh - (cs - nh) / 2 ∧
      (cs - nh - (cs - nh) / 2) - (cs - nh) / 2 ≤ 1 := by
  obtain ⟨hnwcs, hnhcs⟩ : nw ≤ cs ∧ nh ≤ cs := by
    have hle := targetDims_le img.w img.h cs
    rw [hdims] at hle
    exact hle
  refine ⟨pasteMask (Img.new cs cs (0, 0, 0, 0)) (resizeFn img nw nh)
      ((cs - nw) / 2) ((cs - nh) / 2), ?_, rfl, rfl, ?_, ?_, ?_, ?_, ?_⟩
  · unfold create_adaptive_foreground
    rw [hdims]
    simp [Nat.pos_iff_ne_zero.mp hnw, Nat.pos_iff_ne_zero.mp hnh]
  · intro x y hx hy
    constructor
    · intro hne
      by_contra hout
      apply hne
      simp only [pasteMask, Img.new, hrw, hrh] at *
      rw [if_neg hout]
    · intro hin
      have hs := hop (x - (cs - nw) / 2) (y - (cs - nh) / 2) (by omega) (by omega)
      simp only [pasteMask, Img.new, hrw, hrh]
      rw [if_pos]
      · simp [blendPix, blendChannel, hs]
      · exact hin
  · omega
  · omega
  · omega
  · omega

theorem create_adaptive_foreground_centered_witness :
    (targetDims imgGray.w imgGray.h 8 = (5, 5) ∧ (0 : Nat) < 5 ∧
      (resizeConst imgGray 5 5).w = 5 ∧ (resizeConst imgGray 5 5).h = 5) ∧
    (∃ out, create_adaptive_foreground resizeConst imgGray 8 = Except.ok out ∧
      out.w = 8 ∧ out.h = 8 ∧
      (∀ x y, x < 8 → y < 8 →
        (((out.pix x y).2.2.2 ≠ 0) ↔
          ((8 - 5) / 2 ≤ x ∧ x < (8 - 5) / 2 + 5 ∧
            (8 - 5) / 2 ≤ y ∧ y < (8 - 5) / 2 + 5))) ∧
      (8 - 5) / 2 ≤ 8 - 5 - (8 - 5) / 2 ∧
      (8 - 5 - (8 - 5) / 2) - (8 - 5) / 2 ≤ 1 ∧
      (8 - 5) / 2 ≤ 8 - 5 - (8 - 5) / 2 ∧
      (8 - 5 - (8 - 5) / 2) - (8 - 5) / 2 ≤ 1) :=
  ⟨⟨by decide, by decide, rfl, rfl⟩,
    create_adaptive_foreground_centered resizeConst imgGray 8 5 5 (by decide)
      (by decide) (by decide) rfl rfl (fun _ _ _ _ => rfl)⟩

/-- C5 counterexample: for the partially transparent source `imgHalf` (left
column opaque, rest transparent) on an 8-canvas, with a dimension-correct
resize that preserves the source's alpha pattern, the non-transparent region
of the output is exactly [1, 3) x [1, 6): its horizontal margins are 1 on the
left and 8 - 3 = 5 on the right, so the non-transparent bounding box is NOT
centered within one pixel on both axes — refuting the claim's universal
quantification over all source images. -/
theorem create_adaptive_foreground_not_centered :
    create_adaptive_foreground resizeNearest imgHalf 8 = Except.ok cafHalfOut ∧
    (∀ x, x < 8 → ∀ y, y < 8 →
      (((cafHalfOut.pix x y).2.2.2 ≠ 0) ↔ (1 ≤ x ∧ x < 3 ∧ 1 ≤ y ∧ y < 6))) ∧
    (1 : Nat) + 1 < 8 - 3 :=
  ⟨rfl, by decide, by decide⟩

/-- C7: the square-normalization fill color (255, 42, 42) is classified as
background by the same predicate used for bbox detection and keying; hence
for a non-square source every padding pixel of the square canvas (outside
the centered paste rectangle) is background-classified -- it is skipped by
the bbox scan's foreground test and keyed to alpha 0 by the chroma-keyer. -/
theorem normalize_padding_background (base : Img) (hns : base.w ≠ base.h) :
    isBackgroundRed 255 42 42 = true ∧
    (normalizeSquare base).w = max base.w base.h ∧
    (normalizeSquare base).h = max base.w base.h ∧
    (∀ x y,
      ¬((max base.w base.h - base.w) / 2 ≤ x ∧
          x < (max base.w base.h - base.w) / 2 + base.w ∧
          (max base.w base.h - base.h) / 2 ≤ y ∧
          y < (max base.w base.h - base.h) / 2 + base.h) →
        (normalizeSquare base).pix x y = (255, 42, 42, 255) ∧
        fgAt (normalizeSquare base) x y = false ∧
        ((makeTransparentForeground (normalizeSquare base)).pix x y).2.2.2 = 0) := by
  refine ⟨by decide, ?_, ?_, ?_⟩
  · simp [normalizeSquare, hns, pastePlain, Img.new]
  · simp [normalizeSquare, hns, pastePlain, Img.new]
  · intro x y hout
    have hpix : (normalizeSquare base).pix x y = (255, 42, 42, 255) := by
      simp only [normalizeSquare, hns, if_false, pastePlain, Img.new]
      rw [if_neg hout]
    refine ⟨hpix, ?_, ?_⟩
    · simp [fgAt, hpix, isBackgroundRed]
    · simp [makeTransparentForeground, hpix, isBackgroundRed]

theorem normalize_padding_background_witness :
    (imgTall.w ≠ imgTall.h ∧
      ¬((max imgTall.w imgTall.h - imgTall.w) / 2 ≤ 0 ∧
          0 < (max imgTall.w imgTall.h - imgTall.w) / 2 + imgTall.w ∧
          (max imgTall.w imgTall.h - imgTall.h) / 2 ≤ 0 ∧
          0 < (max imgTall.w imgTall.h - imgTall.h) / 2 + imgTall.h)) ∧
    ((normalizeSquare imgTall).pix 0 0 = (255, 42, 42, 255) ∧
      fgAt (normalizeSquare imgTall) 0 0 = false ∧
      ((makeTransparentForeground (normalizeSquare imgTall)).pix 0 0).2.2.2 = 0) :=
  ⟨⟨by decide, by decide⟩,
    (normalize_padding_background imgTall (by decide)).2.2.2 0 0 (by decide)⟩

/-! ## Content bounding box (C2) -/

/-- A single scan step only moves `left`/`top` down and `right`/`bottom` up. -/
theorem bboxStep_mono (img : Img) (s : BboxState) (c : Nat × Nat) :
    (bboxStep img s c).left ≤ s.left ∧ (bboxStep img s c).top ≤ s.top ∧
    s.right ≤ (bboxStep img s c).right ∧ s.bottom ≤ (bboxStep img s c).bottom := by
  unfold bboxStep
  split
  · refine ⟨?_, ?_, ?_, ?_⟩ <;> simp only [] <;> split <;> omega
  · exact ⟨le_refl _, le_refl _, le_refl _, le_refl _⟩

/-- The whole scan only moves `left`/`top` down and `right`/`bottom` up. -/
theorem bboxFold_mono (img : Img) (cs : List (Nat × Nat)) :
    ∀ s : BboxState,
      (cs.foldl (bboxStep img) s).left ≤ s.left ∧
      (cs.foldl (bboxStep img) s).top ≤ s.top ∧
      s.right ≤ (cs.foldl (bboxStep img) s).right ∧
      s.bottom ≤ (cs.foldl (bboxStep img) s).bottom := by
  induction cs with
  | nil => intro s; simp
  | cons c cs ih =>
    intro s
    simp only [List.foldl_cons]
    have h1 := bboxStep_mono img s c
    have h2 := ih (bboxStep img s c)
    exact ⟨le_trans h2.1 h1.1, le_trans h2.2.1 h1.2.1,
      le_trans h1.2.2.1 h2.2.2.1, le_trans h1.2.2.2 h2.2.2.2⟩

/-- A step on a foreground pixel bounds the state by that pixel's coordinates. -/
theorem bboxStep_le (img : Img) (s : BboxState) (c : Nat × Nat)
    (hfg : fgAt img c.1 c.2 = true) :
    (bboxStep img s c).left ≤ c.1 ∧ (bboxStep img s c).top ≤ c.2 ∧
    c.1 ≤ (bboxStep img s c).right ∧ c.2 ≤ (bboxStep img s c).bottom := by
  unfold bboxStep
  rw [if_pos hfg]
  refine ⟨?_, ?_, ?_, ?_⟩ <;> simp only [] <;> split <;> omega

/-- After the scan, every foreground pixel in the scanned list is inside the
running extrema. -/
theorem bboxFold_le (img : Img) (cs : List (Nat × Nat)) :
    ∀ (s : BboxState) (c : Nat × Nat), c ∈ cs → fgAt img c.1 c.2 = true →
      (cs.foldl (bboxStep img) s).left ≤ c.1 ∧
      (cs.foldl (bboxStep img) s).top ≤ c.2 ∧
      c.1 ≤ (cs.foldl (bboxStep img) s).right ∧
      c.2 ≤ (cs.foldl (bboxStep img) s).bottom := by
  induction cs with
  | nil => intro s c hc; exact absurd hc (List.not_mem_nil c)
  | cons d cs ih =>
    intro s c hc hfg
    rcases List.mem_cons.mp hc with hed | hmem
    · subst hed
      simp only [List.foldl_cons]
      have h1 := bboxStep_le img s c hfg
      have h2 := bboxFold_mono img cs (bboxStep img s c)
      exact ⟨le_trans h2.1 h1.1, le_trans h2.2.1 h1.2.1,
        le_trans h1.2.2.1 h2.2.2.1, le_trans h1.2.2.2 h2.2.2.2⟩
    · simp only [List.foldl_cons]
      exact ih (bboxStep img s d) c hmem hfg

/-- `found` after the scan is: it was already set, or some scanned pixel is
foreground. -/
theorem bboxFold_found (img : Img) (cs : List (Nat × Nat)) :
    ∀ s : BboxState,
      (cs.foldl (bboxStep img) s).found =
        (s.found || cs.any fun c => fgAt img c.1 c.2) := by
  induction cs with
  | nil => intro s; simp
  | cons c cs ih =>
    intro s
    simp only [List.foldl_cons, List.any_cons, ih (bboxStep img s c)]
    unfold bboxStep
    split
    · rename_i hfg
      simp [hfg]
    · rename_i hfg
      simp only [Bool.not_eq_true] at hfg
      simp [hfg]

/-- Each extremum after the scan is either untouched or attained at a
foreground pixel of the scanned list. -/
theorem bboxFold_attained (img : Img) (cs : List (Nat × Nat)) :
    ∀ s : BboxState,
      ((cs.foldl (bboxStep img) s).left = s.left ∨
        ∃ c ∈ cs, fgAt img c.1 c.2 = true ∧ (cs.foldl (bboxStep img) s).left = c.1) ∧
      ((cs.foldl (bboxStep img) s).top = s.top ∨
        ∃ c ∈ cs, fgAt img c.1 c.2 = true ∧ (cs.foldl (bboxStep img) s).top = c.2) ∧
      ((cs.foldl (bboxStep img) s).right = s.right ∨
        ∃ c ∈ cs, fgAt img c.1 c.2 = true ∧ (cs.foldl (bboxStep img) s).right = c.1) ∧
      ((cs.foldl (bboxStep img) s).bottom = s.bottom ∨
        ∃ c ∈ cs, fgAt img c.1 c.2 = true ∧ (cs.foldl (bboxStep img) s).bottom = c.2) := by
  induction cs with
  | nil => intro s; simp
  | cons d cs ih =>
    intro s
    simp only [List.foldl_cons]
    obtain ⟨ihl, iht, ihr, ihb⟩ := ih (bboxStep img s d)
    by_cases hfg : fgAt img d.1 d.2 = true
    · refine ⟨?_, ?_, ?_, ?_⟩
      · rcases ihl with h | ⟨c, hc, hcf, hce⟩
        · rw [h]
          unfold bboxStep
          rw [if_pos hfg]
          simp only []
          split
          · exact Or.inr ⟨d, List.mem_cons_self d cs, hfg, rfl⟩
          · exact Or.inl rfl
        · exact Or.inr ⟨c, List.mem_cons_of_mem d hc, hcf, hce⟩
      · rcases iht with h | ⟨c, hc, hcf, hce⟩
        · rw [h]
          unfold bboxStep
          rw [if_pos hfg]
          simp only []
          split
          · exact Or.inr ⟨d, List.mem_cons_self d cs, hfg, rfl⟩
          · exact Or.inl rfl
        · exact Or.inr ⟨c, List.mem_cons_of_mem d hc, hcf, hce⟩
      · rcases ihr with h | ⟨c, hc, hcf, hce⟩
        · rw [h]
          unfold bboxStep
          rw [if_pos hfg]
          simp only []
          split
          · exact Or.inr ⟨d, List.mem_cons_self d cs, hfg, rfl⟩
          · exact Or.inl rfl
        · exact Or.inr ⟨c, List.mem_cons_of_mem d hc, hcf, hce⟩
      · rcases ihb with h | ⟨c, hc, hcf, hce⟩
        · rw [h]
          unfold bboxStep
          rw [if_pos hfg]
          simp only []
          split
          · exact Or.inr ⟨d, List.mem_cons_self d cs, hfg, rfl⟩
          · exact Or.inl rfl
        · exact Or.inr ⟨c, List.mem_cons_of_mem d hc, hcf, hce⟩
    · have hstep : bboxStep img s d = s := by
        unfold bboxStep
        rw [if_neg hfg]
      rw [hstep] at ihl iht ihr ihb
      refine ⟨?_, ?_, ?_, ?_⟩
      · rcases ihl with h | ⟨c, hc, hcf, hce⟩
        · rw [hstep]; exact Or.inl h
        · rw [hstep]; exact Or.inr ⟨c, List.mem_cons_of_mem d hc, hcf, hce⟩
      · rcases iht with h | ⟨c, hc, hcf, hce⟩
        · rw [hstep]; exact Or.inl h
        · rw [hstep]; exact Or.inr ⟨c, List.mem_cons_of_mem d hc, hcf, hce⟩
      · rcases ihr with h | ⟨c, hc, hcf, hce⟩
        · rw [hstep]; exact Or.inl h
        · rw [hstep]; exact Or.inr ⟨c, List.mem_cons_of_mem d hc, hcf, hce⟩
      · rcases ihb with h | ⟨c, hc, hcf, hce⟩
        · rw [hstep]; exact Or.inl h
        · rw [hstep]; exact Or.inr ⟨c, List.mem_cons_of_mem d hc, hcf, hce⟩

/-- Membership in the scan order is exactly being inside the image grid. -/
theorem mem_scanCoords (w h x y : Nat) :
    (x, y) ∈ scanCoords w h ↔ x < w ∧ y < h := by
  simp only [scanCoords, List.mem_flatMap, List.mem_map, List.mem_range, Prod.mk.injEq]
  constructor
  · rintro ⟨b, hb, a, ha, hax, hby⟩
    subst hax; subst hby
    exact ⟨ha, hb⟩
  · rintro ⟨hx, hy⟩
    exact ⟨y, hy, x, hx, rfl, rfl⟩

/-- C2: on an image with at least one foreground (non-background) pixel, the
bbox detector returns a box whose left/top are lower bounds of all foreground
coordinates, whose exclusive right/bottom strictly exceed them, and which is
minimal: each of the four edges is attained by some foreground pixel.  On an
image with no foreground pixel it returns (0, 0, w, h). -/
theorem findContentBbox_spec (img : Img) :
    ((∃ x, x < img.w ∧ ∃ y, y < img.h ∧ fgAt img x y = true) →
      (∀ x y, x < img.w → y < img.h → fgAt img x y = true →
        (findContentBbox img).1 ≤ x ∧ (findContentBbox img).2.1 ≤ y ∧
        x < (findContentBbox img).2.2.1 ∧ y < (findContentBbox img).2.2.2) ∧
      (∃ x y, x < img.w ∧ y < img.h ∧ fgAt img x y = true ∧
        x = (findContentBbox img).1) ∧
      (∃ x y, x < img.w ∧ y < img.h ∧ fgAt img x y = true ∧
        y = (findContentBbox img).2.1) ∧
      (∃ x y, x < img.w ∧ y < img.h ∧ fgAt img x y = true ∧
        x = (findContentBbox img).2.2.1 - 1) ∧
      (∃ x y, x < img.w ∧ y < img.h ∧ fgAt img x y = true ∧
        y = (findContentBbox img).2.2.2 - 1)) ∧
    ((∀ x y, x < img.w → y < img.h → fgAt img x y = false) →
      findContentBbox img = (0, 0, img.w, img.h)) := by
  constructor
  · rintro ⟨x0, hx0, y0, hy0, hfg0⟩
    have hmem0 : (x0, y0) ∈ scanCoords img.w img.h :=
      (mem_scanCoords img.w img.h x0 y0).mpr ⟨hx0, hy0⟩
    have hfound : ((scanCoords img.w img.h).foldl (bboxStep img)
        ⟨img.w, img.h, 0, 0, false⟩).found = true := by
      rw [bboxFold_found img (scanCoords img.w img.h) ⟨img.w, img.h, 0, 0, false⟩]
      simp only [Bool.false_or, List.any_eq_true]
      exact ⟨(x0, y0), hmem0, hfg0⟩
    have hval : findContentBbox img =
        (((scanCoords img.w img.h).foldl (bboxStep img) ⟨img.w, img.h, 0, 0, false⟩).left,
          ((scanCoords img.w img.h).foldl (bboxStep img) ⟨img.w, img.h, 0, 0, false⟩).top,
          ((scanCoords img.w img.h).foldl (bboxStep img) ⟨img.w, img.h, 0, 0, false⟩).right + 1,
          ((scanCoords img.w img.h).foldl (bboxStep img) ⟨img.w, img.h, 0, 0, false⟩).bottom + 1) := by
      unfold findContentBbox
      rw [if_pos hfound]
    rw [hval]
    dsimp only
    have hle0 := bboxFold_le img (scanCoords img.w img.h) ⟨img.w, img.h, 0, 0, false⟩
      (x0, y0) hmem0 hfg0
    obtain ⟨hal, hat, har, hab⟩ :=
      bboxFold_attained img (scanCoords img.w img.h) ⟨img.w, img.h, 0, 0, false⟩
    refine ⟨?_, ?_, ?_, ?_, ?_⟩
    · intro x y hx hy hfg
      have hle := bboxFold_le img (scanCoords img.w img.h) ⟨img.w, img.h, 0, 0, false⟩
        (x, y) ((mem_scanCoords img.w img.h x y).mpr ⟨hx, hy⟩) hfg
      exact ⟨hle.1, hle.2.1, Nat.lt_succ_of_le hle.2.2.1, Nat.lt_succ_of_le hle.2.2.2⟩
    · rcases hal with h | ⟨c, hc, hcf, hce⟩
      · exfalso
        dsimp only at h
        omega
      · obtain ⟨hcx, hcy⟩ := (mem_scanCoords img.w img.h c.1 c.2).mp hc
        exact ⟨c.1, c.2, hcx, hcy, hcf, hce.symm⟩
    · rcases hat with h | ⟨c, hc, hcf, hce⟩
      · exfalso
        dsimp only at h
        omega
      · obtain ⟨hcx, hcy⟩ := (mem_scanCoords img.w img.h c.1 c.2).mp hc
        exact ⟨c.1, c.2, hcx, hcy, hcf, hce.symm⟩
    · rcases har with h | ⟨c, hc, hcf, hce⟩
      · dsimp only at h
        refine ⟨x0, y0, hx0, hy0, hfg0, ?_⟩
        omega
      · obtain ⟨hcx, hcy⟩ := (mem_scanCoords img.w img.h c.1 c.2).mp hc
        refine ⟨c.1, c.2, hcx, hcy, hcf, ?_⟩
        omega
    · rcases hab with h | ⟨c, hc, hcf, hce⟩
      · dsimp only at h
        refine ⟨x0, y0, hx0, hy0, hfg0, ?_⟩
        omega
      · obtain ⟨hcx, hcy⟩ := (mem_scanCoords img.w img.h c.1 c.2).mp hc
        refine ⟨c.1, c.2, hcx, hcy, hcf, ?_⟩
        omega
  · intro hnone
    have hany : ((scanCoords img.w img.h).any fun c => fgAt img c.1 c.2) = false := by
      rw [List.any_eq_false]
      intro c hc
      obtain ⟨hcx, hcy⟩ := (mem_scanCoords img.w img.h c.1 c.2).mp hc
      simp [hnone c.1 c.2 hcx hcy]
    have hfound : ((scanCoords img.w img.h).foldl (bboxStep img)
        ⟨img.w, img.h, 0, 0, false⟩).found = false := by
      rw [bboxFold_found img (scanCoords img.w img.h) ⟨img.w, img.h, 0, 0, false⟩]
      simp [hany]
    unfold findContentBbox
    rw [if_neg]
    simp [hfound]

theorem findContentBbox_spec_witness :
    (∃ x, x < imgA.w ∧ ∃ y, y < imgA.h ∧ fgAt imgA x y = true) ∧
    ((∀ x y, x < imgA.w → y < imgA.h → fgAt imgA x y = true →
        (findContentBbox imgA).1 ≤ x ∧ (findContentBbox imgA).2.1 ≤ y ∧
        x < (findContentBbox imgA).2.2.1 ∧ y < (findContentBbox imgA).2.2.2) ∧
      (∃ x y, x < imgA.w ∧ y < imgA.h ∧ fgAt imgA x y = true ∧
        x = (findContentBbox imgA).1) ∧
      (∃ x y, x < imgA.w ∧ y < imgA.h ∧ fgAt imgA x y = true ∧
        y = (findContentBbox imgA).2.1) ∧
      (∃ x y, x < imgA.w ∧ y < imgA.h ∧ fgAt imgA x y = true ∧
        x = (findContentBbox imgA).2.2.1 - 1) ∧
      (∃ x y, x < imgA.w ∧ y < imgA.h ∧ fgAt imgA x y = true ∧
        y = (findContentBbox imgA).2.2.2 - 1)) :=
  ⟨⟨1, by decide, 1, by decide, by decide⟩,
    (findContentBbox_spec imgA).1 ⟨1, by decide, 1, by decide, by decide⟩⟩
